import Mathlib

/-!
Shallow embedding of the generative core of `src/plum.vue` (a branching
"plum blossom" fractal generator): geometry primitives, pattern and palette
profiles, the influence fields, the color mapper, the budget-guarded work
queue and the growth engine `step`.

Conventions of the embedding:
* JavaScript numbers are modelled as real numbers (`ℝ`); the density slider,
  which only feeds integer/rational arithmetic (the segment budget) and a
  rational scale factor, is carried as `ℚ` and cast into `ℝ` where the code
  multiplies it into a length.
* `Math.random()` draws are explicit inputs: each call site receives its own
  roll value, universally quantified in the theorems.  `randomBetween a b`
  applied to a roll `t` is `a + t * (b - a)`, exactly the source expression.
* Mutable component state (`tasks`, `taskIndex`, `drawnSegments`) becomes an
  explicit `RunState` record threaded through the operations.
* JavaScript `%` (sign-of-dividend remainder) is modelled by `jsRem`, built
  from truncation toward zero, and `Math.floor` by `Int.floor`.
-/

open Classical

namespace Plum

/-- 2D point, as in the `Point` interface of the source. -/
structure Point where
  x : ℝ
  y : ℝ

/-- A pending growth instruction, as in the `Branch` interface. -/
structure Branch where
  start : Point
  length : ℝ
  theta : ℝ
  depth : ℕ
  hueOffset : ℝ

/-- Pattern identifier (`type Pattern`). -/
inductive Pattern where
  | plum | spiral | crystal
  deriving DecidableEq

/-- Palette identifier (`type Palette`). -/
inductive Palette where
  | mist | sunset | aurora
  deriving DecidableEq

/-- Growth parameters of a pattern (`interface PatternConfig`). -/
structure PatternConfig where
  spread : ℝ
  twist : ℝ
  decayMin : ℝ
  decayMax : ℝ
  depthLimit : ℕ
  splitChance : ℝ
  minChildren : ℕ
  maxChildren : ℕ

/-- Color parameters of a palette (`interface PaletteConfig`). -/
structure PaletteConfig where
  baseHue : ℝ
  hueStep : ℝ
  saturation : ℝ
  alpha : ℝ
  lightnessDark : ℝ × ℝ
  lightnessLight : ℝ × ℝ

/-- The fixed table `patternConfigs`. -/
def patternConfigs : Pattern → PatternConfig
  | .plum =>
      { spread := 0.45, twist := 0, decayMin := 0.88, decayMax := 1.05
        depthLimit := 70, splitChance := 0.62, minChildren := 1, maxChildren := 2 }
  | .spiral =>
      { spread := 0.36, twist := 0.15, decayMin := 0.86, decayMax := 0.98
        depthLimit := 80, splitChance := 0.58, minChildren := 1, maxChildren := 3 }
  | .crystal =>
      { spread := 0.2, twist := 0, decayMin := 0.9, decayMax := 1.03
        depthLimit := 90, splitChance := 0.78, minChildren := 2, maxChildren := 3 }

/-- The fixed table `paletteConfigs`. -/
def paletteConfigs : Palette → PaletteConfig
  | .mist =>
      { baseHue := 36, hueStep := 2.4, saturation := 26, alpha := 0.24
        lightnessDark := (58, 78), lightnessLight := (30, 57) }
  | .sunset =>
      { baseHue := 16, hueStep := 4.2, saturation := 70, alpha := 0.24
        lightnessDark := (56, 74), lightnessLight := (35, 61) }
  | .aurora =>
      { baseHue := 214, hueStep := 3.4, saturation := 38, alpha := 0.2
        lightnessDark := (58, 76), lightnessLight := (29, 50) }

/-- The reactive configuration the component reads while growing: canvas size,
pattern/palette selection, the sliders, the pointer and the time phase. -/
structure Config where
  width : ℝ
  height : ℝ
  pattern : Pattern
  palette : Palette
  density : ℚ
  flowEnabled : Bool
  flowStrength : ℝ
  timeMotion : Bool
  motionAmount : ℝ
  pointer : Option Point
  timePhase : ℝ
  isDark : Bool

/-- `segmentLimit`: `Math.floor((2200 + density * 42) * (timeMotion ? 0.65 : 1))`. -/
def segmentLimit (cfg : Config) : ℤ :=
  ⌊(2200 + cfg.density * 42) * (if cfg.timeMotion then (13 / 20 : ℚ) else 1)⌋

/-- `frameBudget`: `timeMotion ? Math.max(28, Math.floor(speed * 0.65)) : speed`
(speed is the user slider; carried separately from `Config` since only the
scheduler reads it). -/
def frameBudget (speed : ℚ) (timeMotion : Bool) : ℤ :=
  if timeMotion then max 28 ⌊speed * (13 / 20 : ℚ)⌋ else ⌊speed⌋

/-- `randomBetween(min, max)` with the `Math.random()` draw `t` made explicit:
`min + t * (max - min)`. -/
def randomBetween (lo hi t : ℝ) : ℝ := lo + t * (hi - lo)

/-- `clamp(value, min, max) = Math.min(max, Math.max(min, value))`. -/
noncomputable def clamp (value lo hi : ℝ) : ℝ := min hi (max lo value)

/-- First loop of `normalizeAngle`: `while (value > Math.PI) value -= Math.PI * 2`. -/
noncomputable def normLoopSub (value : ℝ) : ℝ :=
  if Real.pi < value then normLoopSub (value - Real.pi * 2) else value
termination_by (⌈(value - Real.pi) / (Real.pi * 2)⌉).toNat
decreasing_by
  have hpi : (0 : ℝ) < Real.pi * 2 := by positivity
  have hpos : 0 < (value - Real.pi) / (Real.pi * 2) := by
    apply div_pos _ hpi
    linarith
  have hceil : 0 < ⌈(value - Real.pi) / (Real.pi * 2)⌉ := Int.ceil_pos.mpr hpos
  have hstep : (value - Real.pi * 2 - Real.pi) / (Real.pi * 2)
      = (value - Real.pi) / (Real.pi * 2) - 1 := by
    field_simp
    ring
  have : ⌈(value - Real.pi * 2 - Real.pi) / (Real.pi * 2)⌉
      = ⌈(value - Real.pi) / (Real.pi * 2)⌉ - 1 := by
    rw [hstep]
    exact_mod_cast Int.ceil_sub_int ((value - Real.pi) / (Real.pi * 2)) 1
  omega

/-- Second loop of `normalizeAngle`: `while (value < -Math.PI) value += Math.PI * 2`. -/
noncomputable def normLoopAdd (value : ℝ) : ℝ :=
  if value < -Real.pi then normLoopAdd (value + Real.pi * 2) else value
termination_by (⌈(-Real.pi - value) / (Real.pi * 2)⌉).toNat
decreasing_by
  have hpi : (0 : ℝ) < Real.pi * 2 := by positivity
  have hpos : 0 < (-Real.pi - value) / (Real.pi * 2) := by
    apply div_pos _ hpi
    linarith
  have hceil : 0 < ⌈(-Real.pi - value) / (Real.pi * 2)⌉ := Int.ceil_pos.mpr hpos
  have hstep : (-Real.pi - (value + Real.pi * 2)) / (Real.pi * 2)
      = (-Real.pi - value) / (Real.pi * 2) - 1 := by
    field_simp
    ring
  have : ⌈(-Real.pi - (value + Real.pi * 2)) / (Real.pi * 2)⌉
      = ⌈(-Real.pi - value) / (Real.pi * 2)⌉ - 1 := by
    rw [hstep]
    exact_mod_cast Int.ceil_sub_int ((-Real.pi - value) / (Real.pi * 2)) 1
  omega

/-- `normalizeAngle`: the two sequential wrap-around loops of the source. -/
noncomputable def normalizeAngle (angle : ℝ) : ℝ := normLoopAdd (normLoopSub angle)

/-- Truncation toward zero, the rounding of JavaScript's `%` operator. -/
noncomputable def jsTrunc (x : ℝ) : ℤ := if 0 ≤ x then ⌊x⌋ else ⌈x⌉

/-- JavaScript remainder `a % b`: `a - b * trunc(a / b)` (sign of the dividend). -/
noncomputable def jsRem (a b : ℝ) : ℝ := a - b * jsTrunc (a / b)

/-- Mathematical modulus on the reals, `x - m·⌊x/m⌋`: the "normalized
non-negative mod 360" the specification's color-mapper formula refers to. -/
noncomputable def realMod (x m : ℝ) : ℝ := x - m * ⌊x / m⌋

/-- `Math.atan2(y, x)`, modelled as the argument of the complex number `x + y·i`
(range `(-π, π]`, matching the JavaScript function up to the sign of zero). -/
noncomputable def atan2 (y x : ℝ) : ℝ := Complex.arg ⟨x, y⟩

/-- `getPaletteLightness`: linear interpolation over the clamped depth ratio in
the palette's theme-selected lightness range. -/
noncomputable def getPaletteLightness (cfg : Config) (depth : ℕ) (depthLimit : ℕ) : ℝ :=
  let config := paletteConfigs cfg.palette
  let ratio := clamp ((depth : ℝ) / (depthLimit : ℝ)) 0 1
  let range := if cfg.isDark then config.lightnessDark else config.lightnessLight
  range.1 + ratio * (range.2 - range.1)

/-- The components of the `hsla(...)` string built by `getStrokeColor`. -/
structure Hsla where
  hue : ℝ
  saturation : ℝ
  lightness : ℝ
  alpha : ℝ

/-- `getStrokeColor`: hue is `(baseHue + depth * hueStep + hueOffset + 360) % 360`
with JavaScript remainder semantics; saturation and alpha come from the palette,
lightness from `getPaletteLightness`. -/
noncomputable def getStrokeColor (cfg : Config) (depth : ℕ) (depthLimit : ℕ)
    (hueOffset : ℝ) : Hsla :=
  let config := paletteConfigs cfg.palette
  { hue := jsRem (config.baseHue + (depth : ℝ) * config.hueStep + hueOffset + 360) 360
    saturation := config.saturation
    lightness := getPaletteLightness cfg depth depthLimit
    alpha := config.alpha }

/-- `getEndPoint`. -/
noncomputable def getEndPoint (branch : Branch) : Point :=
  { x := branch.start.x + branch.length * Real.cos branch.theta
    y := branch.start.y + branch.length * Real.sin branch.theta }

/-- `isInBounds`. -/
def isInBounds (cfg : Config) (point : Point) : Prop :=
  0 ≤ point.x ∧ point.x ≤ cfg.width ∧ 0 ≤ point.y ∧ point.y ≤ cfg.height

/-- `getFlowInfluence`: pointer-field perturbation of a heading. -/
noncomputable def getFlowInfluence (cfg : Config) (start : Point) (theta : ℝ) : ℝ :=
  if cfg.flowEnabled = false then 0 else
    match cfg.pointer with
    | none => 0
    | some p =>
        let dx := p.x - start.x
        let dy := p.y - start.y
        let distance := Real.sqrt (dx ^ 2 + dy ^ 2)
        let radius := min cfg.width cfg.height * 0.6
        if radius < distance then 0
        else
          let target := atan2 dy dx
          let angleDelta := normalizeAngle (target - theta)
          let falloff := 1 - distance / radius
          angleDelta * 0.28 * (cfg.flowStrength / 100) * falloff

/-- `getTimeInfluence`: phase-driven oscillation perturbation. -/
noncomputable def getTimeInfluence (cfg : Config) (depth : ℕ) (childIndex : ℕ) : ℝ :=
  if cfg.timeMotion = false then 0 else
    Real.sin (cfg.timePhase + (depth : ℝ) * 0.16 + (childIndex : ℝ) * 0.95)
      * 0.12 * (cfg.motionAmount / 100)

/-- One emitted draw call (`drawLine` arguments that determine the segment and
its color; the random stroke width is not part of any claim and is omitted). -/
structure Segment where
  start : Point
  stop : Point
  depth : ℕ
  depthLimit : ℕ
  hueOffset : ℝ

/-- Mutable generation state: the backing array `tasks`, the read cursor
`taskIndex`, the counter `drawnSegments`, plus the list of emitted segments
standing in for the canvas. -/
structure RunState where
  tasks : List Branch
  taskIndex : ℕ
  drawnSegments : ℕ
  segments : List Segment

/-- The state after `resetTasks` (and a cleared canvas). -/
def initState : RunState :=
  { tasks := [], taskIndex := 0, drawnSegments := 0, segments := [] }

/-- `pendingTaskCount = tasks.length - taskIndex`. -/
def pendingTaskCount (s : RunState) : ℕ := s.tasks.length - s.taskIndex

/-- `popTask`: read the cursor entry, advance, and compact the backing array
(splice off the consumed prefix) once `taskIndex > 512` and
`taskIndex * 2 > tasks.length`. -/
def popTask (s : RunState) : Option Branch × RunState :=
  if h : s.taskIndex < s.tasks.length then
    let task := s.tasks.get ⟨s.taskIndex, h⟩
    let i := s.taskIndex + 1
    if 512 < i ∧ s.tasks.length < i * 2 then
      (some task, { s with tasks := s.tasks.drop i, taskIndex := 0 })
    else
      (some task, { s with taskIndex := i })
  else (none, s)

/-- `queueStep`: refuse to enqueue once `pending + drawn ≥ segmentLimit`. -/
def queueStep (cfg : Config) (s : RunState) (branch : Branch) : RunState :=
  if segmentLimit cfg ≤ (pendingTaskCount s : ℤ) + (s.drawnSegments : ℤ) then s
  else { s with tasks := s.tasks ++ [branch] }

/-- Per-`step` random draws, one field per `Math.random()` call site (the
per-child calls take the child index). -/
structure StepRand where
  splitRoll : ℝ
  countRoll : ℝ
  decayRoll : ℕ → ℝ
  stretchRoll : ℕ → ℝ
  swingRoll : ℕ → ℝ
  hueRoll : ℕ → ℝ

/-- The child branch built in iteration `i` of the loop body of `step`. -/
noncomputable def mkChild (cfg : Config) (config : PatternConfig) (r : StepRand)
    (branch : Branch) (endp : Point) (i : ℕ) : Branch :=
  let densityFactor := (cfg.density : ℝ) / 45
  let length := clamp
    (branch.length * randomBetween config.decayMin config.decayMax (r.decayRoll i)
      * randomBetween 0.9 1.08 (r.stretchRoll i) * densityFactor)
    2 (max cfg.width cfg.height * 0.1)
  let swing := randomBetween (-config.spread) config.spread (r.swingRoll i)
  let drift := if cfg.pattern = Pattern.spiral then (branch.depth : ℝ) * 0.003 else 0
  let field := getFlowInfluence cfg endp branch.theta
  let timeBend := getTimeInfluence cfg branch.depth i
  { start := endp
    length := length
    theta := branch.theta + swing + config.twist + drift + field + timeBend
    depth := branch.depth + 1
    hueOffset := branch.hueOffset + randomBetween (-16) 16 (r.hueRoll i) }

/-- `step`: expand one branch — early-return on budget or minimum length, draw
the segment, stop on out-of-bounds / depth limit / budget, otherwise decide to
split and enqueue `childCount` children through `queueStep`. -/
noncomputable def step (cfg : Config) (r : StepRand) (s : RunState)
    (branch : Branch) : RunState :=
  if segmentLimit cfg ≤ (s.drawnSegments : ℤ) ∨ branch.length < 1.6 then s
  else
    let config := patternConfigs cfg.pattern
    let endp := getEndPoint branch
    let s1 : RunState :=
      { s with drawnSegments := s.drawnSegments + 1
               segments := s.segments ++
                 [{ start := branch.start, stop := endp, depth := branch.depth
                    depthLimit := config.depthLimit, hueOffset := branch.hueOffset }] }
    if ¬ isInBounds cfg endp ∨ config.depthLimit ≤ branch.depth
        ∨ segmentLimit cfg ≤ (s1.drawnSegments : ℤ) then s1
    else
      if ¬ (branch.depth < 3 ∨ r.splitRoll < config.splitChance) then s1
      else
        let childCount :=
          (⌊randomBetween (config.minChildren : ℝ) ((config.maxChildren : ℝ) + 1)
              r.countRoll⌋).toNat
        (List.range childCount).foldl
          (fun acc i => queueStep cfg acc (mkChild cfg config r branch endp i)) s1

/-- `seedBranches`: enqueue the pattern's fixed trunks (the source tests the
pattern identifier with early-return `if`s). -/
noncomputable def seedBranches (cfg : Config) (s : RunState) : RunState :=
  let side := min cfg.width cfg.height
  let length := side * 0.04
  if cfg.pattern = .plum then
    let s1 := queueStep cfg s
      { start := { x := cfg.width * 0.24, y := cfg.height }, length := length
        theta := -(Real.pi / 2), depth := 0, hueOffset := -20 }
    queueStep cfg s1
      { start := { x := cfg.width * 0.76, y := 0 }, length := length
        theta := Real.pi / 2, depth := 0, hueOffset := 20 }
  else if cfg.pattern = .spiral then
    let center : Point := { x := cfg.width / 2, y := cfg.height / 2 }
    (List.range 4).foldl
      (fun acc (i : ℕ) => queueStep cfg acc
        { start := center, length := length, theta := Real.pi / 2 * (i : ℝ)
          depth := 0, hueOffset := (i : ℝ) * 30 }) s
  else
    let center : Point := { x := cfg.width / 2, y := cfg.height / 2 }
    (List.range 6).foldl
      (fun acc (i : ℕ) => queueStep cfg acc
        { start := center, length := side * 0.03, theta := Real.pi / 3 * (i : ℝ)
          depth := 0, hueOffset := (i : ℝ) * 18 }) s

/-- Pop one task and expand it — the loop body of `frame`.  The random draws of
the popped branch's expansion are the argument `r`. -/
noncomputable def runStep1 (cfg : Config) (r : StepRand) (s : RunState) : RunState :=
  match popTask s with
  | (none, s') => s'
  | (some b, s') => step cfg r s' b

/-- Any schedule of pop-and-expand iterations (the frames of a generation run,
flattened; the list carries one `StepRand` per iteration). -/
noncomputable def runSteps (cfg : Config) (rs : List StepRand) (s : RunState) : RunState :=
  rs.foldl (fun s r => runStep1 cfg r s) s

/-- The simple FIFO queue the specification describes (no compaction): pop
removes the front element.  This is the abstract model `popTask`'s compaction
is compared against. -/
structure SpecQueue where
  queue : List Branch
  drawn : ℕ

/-- Pop of the compaction-free FIFO model. -/
def specPop : SpecQueue → Option Branch × SpecQueue
  | { queue := [], drawn := d } => (none, { queue := [], drawn := d })
  | { queue := b :: rest, drawn := d } => (some b, { queue := rest, drawn := d })

/-- Enqueue of the compaction-free FIFO model, with the same budget refusal as
`queueStep`. -/
def specEnq (cfg : Config) (s : SpecQueue) (b : Branch) : SpecQueue :=
  if segmentLimit cfg ≤ (s.queue.length : ℤ) + (s.drawn : ℤ) then s
  else { s with queue := s.queue ++ [b] }

/-- A queue operation: enqueue a branch, or pop. -/
inductive QOp where
  | enq (b : Branch)
  | pop

/-- Run a sequence of queue operations against the real (compacting) queue,
collecting the result of every pop. -/
def runImplOps (cfg : Config) : List QOp → RunState → List (Option Branch)
  | [], _ => []
  | QOp.enq b :: ops, s => runImplOps cfg ops (queueStep cfg s b)
  | QOp.pop :: ops, s => (popTask s).1 :: runImplOps cfg ops (popTask s).2

/-- Run the same operations against the compaction-free FIFO model. -/
def runSpecOps (cfg : Config) : List QOp → SpecQueue → List (Option Branch)
  | [], _ => []
  | QOp.enq b :: ops, s => runSpecOps cfg ops (specEnq cfg s b)
  | QOp.pop :: ops, s => (specPop s).1 :: runSpecOps cfg ops (specPop s).2

/-- Abstraction relation between the compacting queue state and the FIFO
model: the logical queue is the backing array from the read cursor on. -/
def QAbs (s : RunState) (t : SpecQueue) : Prop :=
  s.taskIndex ≤ s.tasks.length ∧ t.queue = s.tasks.drop s.taskIndex
    ∧ t.drawn = s.drawnSegments

/-- A fixed concrete configuration — the initial reactive values of the
component (`width = height = 600`, pattern `plum`, palette `mist`,
`density = 42`, both modes off). -/
def baseConfig : Config :=
  { width := 600, height := 600, pattern := .plum, palette := .mist, density := 42
    flowEnabled := false, flowStrength := 45, timeMotion := false, motionAmount := 30
    pointer := none, timePhase := 0, isDark := false }

/-- A trivial bundle of random draws, for concrete instantiations. -/
noncomputable def zeroRand : StepRand :=
  { splitRoll := 0, countRoll := 0, decayRoll := fun _ => 0, stretchRoll := fun _ => 0
    swingRoll := fun _ => 0, hueRoll := fun _ => 0 }

/-- A concrete branch, for concrete instantiations. -/
noncomputable def demoBranch : Branch :=
  { start := { x := 0, y := 0 }, length := 10, theta := 0, depth := 0, hueOffset := 0 }

/-- C4: `getTimeInfluence` is exactly 0 whenever time-motion mode is disabled;
when enabled it equals
`sin(phase + depth·0.16 + childIndex·0.95) · 0.12 · (motionAmount/100)`. -/
theorem time_influence_spec (cfg : Config) (depth childIndex : ℕ) :
    (cfg.timeMotion = false → getTimeInfluence cfg depth childIndex = 0) ∧
    (cfg.timeMotion = true →
      getTimeInfluence cfg depth childIndex =
        Real.sin (cfg.timePhase + (depth : ℝ) * 0.16 + (childIndex : ℝ) * 0.95)
          * 0.12 * (cfg.motionAmount / 100)) := by
  constructor <;> intro h <;> simp [getTimeInfluence, h]

/-- Witness for C4: with the component's initial configuration (time motion
off), the time influence at depth 2, child 1 is zero. -/
theorem time_influence_spec_witness :
    getTimeInfluence baseConfig 2 1 = 0 :=
  (time_influence_spec baseConfig 2 1).1 rfl

/-- C3: `getFlowInfluence` is exactly 0 when flow mode is disabled, when no
pointer is known, or when the pointer distance exceeds `0.6·min(width,height)`;
otherwise it is the normalized angular difference to the pointer direction
times `0.28 · (flowStrength/100) · (1 - distance/radius)`. -/
theorem flow_influence_spec (cfg : Config) (start : Point) (theta : ℝ) :
    (cfg.flowEnabled = false → getFlowInfluence cfg start theta = 0) ∧
    (cfg.pointer = none → getFlowInfluence cfg start theta = 0) ∧
    (∀ p : Point, cfg.pointer = some p →
      (min cfg.width cfg.height * 0.6
          < Real.sqrt ((p.x - start.x) ^ 2 + (p.y - start.y) ^ 2) →
        getFlowInfluence cfg start theta = 0) ∧
      (cfg.flowEnabled = true →
        Real.sqrt ((p.x - start.x) ^ 2 + (p.y - start.y) ^ 2)
            ≤ min cfg.width cfg.height * 0.6 →
        getFlowInfluence cfg start theta =
          normalizeAngle (atan2 (p.y - start.y) (p.x - start.x) - theta) * 0.28
            * (cfg.flowStrength / 100)
            * (1 - Real.sqrt ((p.x - start.x) ^ 2 + (p.y - start.y) ^ 2)
                / (min cfg.width cfg.height * 0.6)))) := by
  refine ⟨fun h => by simp [getFlowInfluence, h], fun h => ?_, fun p hp => ?_⟩
  · cases hf : cfg.flowEnabled <;> simp [getFlowInfluence, h, hf]
  · constructor
    · intro hdist
      cases hf : cfg.flowEnabled
      · simp [getFlowInfluence, hf]
      · simp only [getFlowInfluence, hf, Bool.true_eq_false, if_false, hp]
        rw [if_pos hdist]
    · intro hf hdist
      simp only [getFlowInfluence, hf, Bool.true_eq_false, if_false, hp]
      rw [if_neg (not_lt.mpr hdist)]

/-- Witness for C3: with the component's initial configuration (flow off, no
pointer), the flow influence vanishes at the origin with heading 0. -/
theorem flow_influence_spec_witness :
    getFlowInfluence baseConfig { x := 0, y := 0 } 0 = 0 :=
  (flow_influence_spec baseConfig { x := 0, y := 0 } 0).1 rfl

lemma normLoopSub_le (v : ℝ) : normLoopSub v ≤ Real.pi := by
  induction v using normLoopSub.induct with
  | case1 v h ih => rw [normLoopSub, if_pos h]; exact ih
  | case2 v h => rw [normLoopSub, if_neg h]; exact le_of_not_lt h

lemma normLoopAdd_ge (v : ℝ) : -Real.pi ≤ normLoopAdd v := by
  induction v using normLoopAdd.induct with
  | case1 v h ih => rw [normLoopAdd, if_pos h]; exact ih
  | case2 v h => rw [normLoopAdd, if_neg h]; exact le_of_not_lt h

lemma normLoopAdd_le (v : ℝ) (hv : v ≤ Real.pi) : normLoopAdd v ≤ Real.pi := by
  induction v using normLoopAdd.induct with
  | case1 v h ih =>
      rw [normLoopAdd, if_pos h]
      refine ih ?_
      have hpi : (0 : ℝ) < Real.pi := Real.pi_pos
      linarith
  | case2 v h => rw [normLoopAdd, if_neg h]; exact hv

/-- C9 counterexample: at input `-π` the normalization returns `-π` itself,
which is not in the half-open interval `(-π, π]`. -/
theorem normalizeAngle_at_neg_pi :
    normalizeAngle (-Real.pi) = -Real.pi ∧
      normalizeAngle (-Real.pi) ∉ Set.Ioc (-Real.pi) Real.pi := by
  have hpi : (0 : ℝ) < Real.pi := Real.pi_pos
  have h1 : normLoopSub (-Real.pi) = -Real.pi := by
    rw [normLoopSub, if_neg (by linarith)]
  have h2 : normalizeAngle (-Real.pi) = -Real.pi := by
    rw [normalizeAngle, h1, normLoopAdd, if_neg (by linarith)]
  exact ⟨h2, by rw [h2]; simp⟩

/-- C9 (amended): `normalizeAngle` always lands in the closed interval
`[-π, π]`; the endpoint `-π` is reachable (see the counterexample), so the
interval cannot be half-open on the left. -/
theorem normalizeAngle_mem_Icc (angle : ℝ) :
    normalizeAngle angle ∈ Set.Icc (-Real.pi) Real.pi :=
  ⟨normLoopAdd_ge (normLoopSub angle),
   normLoopAdd_le (normLoopSub angle) (normLoopSub_le angle)⟩

lemma realMod_mem_Ico (x m : ℝ) (hm : 0 < m) : realMod x m ∈ Set.Ico 0 m := by
  have hfr : realMod x m = m * Int.fract (x / m) := by
    rw [realMod, Int.fract]
    field_simp
  constructor
  · rw [hfr]
    exact mul_nonneg hm.le (Int.fract_nonneg _)
  · rw [hfr]
    calc m * Int.fract (x / m) < m * 1 :=
          (mul_lt_mul_left hm).mpr (Int.fract_lt_one _)
    _ = m := mul_one m

lemma jsRem_of_nonneg (a b : ℝ) (ha : 0 ≤ a) (hb : 0 < b) :
    jsRem a b = realMod a b := by
  rw [jsRem, realMod, jsTrunc, if_pos (div_nonneg ha hb.le)]

/-- C6 counterexample: with the mist palette, depth 0 and `hueOffset = -500`,
the computed hue is `-104`: the JavaScript remainder keeps the dividend's sign
once `baseHue + depth·hueStep + hueOffset < -360`, so the result is neither
the normalized modulus (`256`) nor inside `[0, 360)`. -/
theorem hue_not_normalized_at_neg500 :
    (getStrokeColor baseConfig 0 70 (-500)).hue = -104 ∧
      (getStrokeColor baseConfig 0 70 (-500)).hue ∉ Set.Ico (0 : ℝ) 360 := by
  have h : (getStrokeColor baseConfig 0 70 (-500)).hue = -104 := by
    show jsRem ((paletteConfigs baseConfig.palette).baseHue
        + ((0 : ℕ) : ℝ) * (paletteConfigs baseConfig.palette).hueStep + (-500) + 360) 360
      = -104
    show jsRem ((36 : ℝ) + ((0 : ℕ) : ℝ) * (2.4 : ℝ) + (-500) + 360) 360 = -104
    rw [jsRem, jsTrunc]
    norm_num
  refine ⟨h, ?_⟩
  rw [h]
  simp only [Set.mem_Ico, not_and_or]
  left
  norm_num

/-- C6 (amended): whenever `baseHue + depth·hueStep + hueOffset ≥ -360` — in
particular for every hue offset of magnitude at most 360 — the hue computed by
`getStrokeColor` equals the normalized non-negative
`(baseHue + depth·hueStep + hueOffset) mod 360` and lies in `[0, 360)`; below
`-360` the JavaScript remainder is negative (see the counterexample). -/
theorem hue_normalized_of_ge_neg360 (cfg : Config) (depth depthLimit : ℕ)
    (hueOffset : ℝ)
    (h : -360 ≤ (paletteConfigs cfg.palette).baseHue
        + (depth : ℝ) * (paletteConfigs cfg.palette).hueStep + hueOffset) :
    (getStrokeColor cfg depth depthLimit hueOffset).hue
        = realMod ((paletteConfigs cfg.palette).baseHue
            + (depth : ℝ) * (paletteConfigs cfg.palette).hueStep + hueOffset) 360
      ∧ (getStrokeColor cfg depth depthLimit hueOffset).hue ∈ Set.Ico (0 : ℝ) 360 := by
  set x := (paletteConfigs cfg.palette).baseHue
      + (depth : ℝ) * (paletteConfigs cfg.palette).hueStep + hueOffset with hx
  have hhue : (getStrokeColor cfg depth depthLimit hueOffset).hue = jsRem (x + 360) 360 := rfl
  have hnn : (0 : ℝ) ≤ x + 360 := by linarith
  have hshift : realMod (x + 360) 360 = realMod x 360 := by
    rw [realMod, realMod]
    have : (x + 360) / 360 = x / 360 + 1 := by ring
    rw [this, Int.floor_add_one]
    push_cast
    ring
  have hmain : (getStrokeColor cfg depth depthLimit hueOffset).hue = realMod x 360 := by
    rw [hhue, jsRem_of_nonneg _ _ hnn (by norm_num), hshift]
  exact ⟨hmain, hmain ▸ realMod_mem_Ico x 360 (by norm_num)⟩

/-- Witness for the amended C6: with the mist palette at depth 3 and hue
offset 10, the hue is the normalized modulus of `36 + 3·2.4 + 10`. -/
theorem hue_normalized_witness :
    (getStrokeColor baseConfig 3 70 10).hue
        = realMod ((paletteConfigs baseConfig.palette).baseHue
            + ((3 : ℕ) : ℝ) * (paletteConfigs baseConfig.palette).hueStep + 10) 360 :=
  (hue_normalized_of_ge_neg360 baseConfig 3 70 10 (by
    show (-360 : ℝ) ≤ (36 : ℝ) + ((3 : ℕ) : ℝ) * (2.4 : ℝ) + 10
    norm_num)).1

lemma queueStep_drawn (cfg : Config) (s : RunState) (b : Branch) :
    (queueStep cfg s b).drawnSegments = s.drawnSegments := by
  unfold queueStep
  split_ifs <;> rfl

lemma queueStep_taskIndex (cfg : Config) (s : RunState) (b : Branch) :
    (queueStep cfg s b).taskIndex = s.taskIndex := by
  unfold queueStep
  split_ifs <;> rfl

lemma queueStep_tasks_cases (cfg : Config) (s : RunState) (b : Branch) :
    (queueStep cfg s b).tasks = s.tasks ∨ (queueStep cfg s b).tasks = s.tasks ++ [b] := by
  unfold queueStep
  split_ifs
  · exact Or.inl rfl
  · exact Or.inr rfl

lemma foldl_queueStep_drawn (cfg : Config) (f : ℕ → Branch) (l : List ℕ) (s : RunState) :
    (l.foldl (fun acc i => queueStep cfg acc (f i)) s).drawnSegments = s.drawnSegments := by
  induction l generalizing s with
  | nil => rfl
  | cons a l ih => rw [List.foldl_cons, ih, queueStep_drawn]

lemma foldl_queueStep_taskIndex (cfg : Config) (f : ℕ → Branch) (l : List ℕ) (s : RunState) :
    (l.foldl (fun acc i => queueStep cfg acc (f i)) s).taskIndex = s.taskIndex := by
  induction l generalizing s with
  | nil => rfl
  | cons a l ih => rw [List.foldl_cons, ih, queueStep_taskIndex]

lemma foldl_queueStep_mem (cfg : Config) (f : ℕ → Branch) (l : List ℕ) (s : RunState)
    (b : Branch) (hb : b ∈ (l.foldl (fun acc i => queueStep cfg acc (f i)) s).tasks) :
    b ∈ s.tasks ∨ ∃ i, b = f i := by
  induction l generalizing s with
  | nil => exact Or.inl hb
  | cons a l ih =>
      rw [List.foldl_cons] at hb
      rcases ih _ hb with h | h
      · rcases queueStep_tasks_cases cfg s (f a) with hq | hq
        · rw [hq] at h
          exact Or.inl h
        · rw [hq, List.mem_append] at h
          rcases h with h | h
          · exact Or.inl h
          · exact Or.inr ⟨a, List.mem_singleton.mp h⟩
      · exact Or.inr h

lemma mkChild_depth (cfg : Config) (config : PatternConfig) (r : StepRand)
    (branch : Branch) (endp : Point) (i : ℕ) :
    (mkChild cfg config r branch endp i).depth = branch.depth + 1 := rfl

lemma mkChild_length_eq (cfg : Config) (config : PatternConfig) (r : StepRand)
    (branch : Branch) (endp : Point) (i : ℕ) :
    (mkChild cfg config r branch endp i).length
      = clamp (branch.length * randomBetween config.decayMin config.decayMax (r.decayRoll i)
          * randomBetween 0.9 1.08 (r.stretchRoll i) * ((cfg.density : ℝ) / 45))
          2 (max cfg.width cfg.height * 0.1) := rfl

lemma clamp_mem (value lo hi : ℝ) (h : lo ≤ hi) :
    lo ≤ clamp value lo hi ∧ clamp value lo hi ≤ hi :=
  ⟨le_min h (le_max_left lo value), min_le_left hi _⟩

lemma step_tasks_mem (cfg : Config) (r : StepRand) (s : RunState) (branch : Branch)
    (b : Branch) (hb : b ∈ (step cfg r s branch).tasks) :
    b ∈ s.tasks ∨
      ∃ i, b = mkChild cfg (patternConfigs cfg.pattern) r branch (getEndPoint branch) i := by
  simp only [step] at hb
  split_ifs at hb
  · exact Or.inl hb
  · exact Or.inl hb
  · rcases foldl_queueStep_mem _ _ _ _ _ hb with h | h
    · exact Or.inl h
    · exact Or.inr h
  · exact Or.inl hb

lemma step_tasks_at_depthLimit (cfg : Config) (r : StepRand) (s : RunState)
    (branch : Branch) (h : (patternConfigs cfg.pattern).depthLimit ≤ branch.depth) :
    (step cfg r s branch).tasks = s.tasks := by
  simp only [step]
  split_ifs with h1 h2 h3
  · rfl
  · rfl
  · exact absurd (Or.inr (Or.inl h)) h2
  · rfl

/-- C2: every branch present after `step` is either an old task or a child of
depth exactly `parent.depth + 1`, and a branch at or past the pattern's depth
limit enqueues no children at all. -/
theorem child_depth_succ (cfg : Config) (r : StepRand) (s : RunState) (branch : Branch) :
    (∀ b ∈ (step cfg r s branch).tasks, b ∈ s.tasks ∨ b.depth = branch.depth + 1) ∧
    ((patternConfigs cfg.pattern).depthLimit ≤ branch.depth →
      (step cfg r s branch).tasks = s.tasks) := by
  constructor
  · intro b hb
    rcases step_tasks_mem cfg r s branch b hb with h | ⟨i, rfl⟩
    · exact Or.inl h
    · exact Or.inr (mkChild_depth ..)
  · exact step_tasks_at_depthLimit cfg r s branch

/-- Witness for C2: a branch already at the plum depth limit (70) leaves the
queue untouched when expanded. -/
theorem child_depth_succ_witness :
    (step baseConfig zeroRand initState
        { start := { x := 0, y := 0 }, length := 10, theta := 0
          depth := 70, hueOffset := 0 }).tasks = initState.tasks :=
  (child_depth_succ baseConfig zeroRand initState _).2
    (by norm_num [patternConfigs, baseConfig])

lemma segmentLimit_ge (cfg : Config) (hd : 0 ≤ cfg.density) :
    1430 ≤ segmentLimit cfg := by
  unfold segmentLimit
  apply Int.le_floor.mpr
  split_ifs
  · push_cast
    nlinarith [hd]
  · push_cast
    nlinarith [hd]

lemma step_drawn_le (cfg : Config) (r : StepRand) (s : RunState) (branch : Branch)
    (h : (s.drawnSegments : ℤ) ≤ segmentLimit cfg) :
    ((step cfg r s branch).drawnSegments : ℤ) ≤ segmentLimit cfg := by
  simp only [step]
  split_ifs with h1 h2 h3
  · exact h
  all_goals
    have h1' : ¬ segmentLimit cfg ≤ (s.drawnSegments : ℤ) := fun hc => h1 (Or.inl hc)
  · show ((s.drawnSegments + 1 : ℕ) : ℤ) ≤ segmentLimit cfg
    omega
  · rw [foldl_queueStep_drawn]
    show ((s.drawnSegments + 1 : ℕ) : ℤ) ≤ segmentLimit cfg
    omega
  · show ((s.drawnSegments + 1 : ℕ) : ℤ) ≤ segmentLimit cfg
    omega

lemma popTask_drawn (s : RunState) : (popTask s).2.drawnSegments = s.drawnSegments := by
  simp only [popTask]
  split_ifs <;> rfl

lemma runStep1_drawn_le (cfg : Config) (r : StepRand) (s : RunState)
    (h : (s.drawnSegments : ℤ) ≤ segmentLimit cfg) :
    ((runStep1 cfg r s).drawnSegments : ℤ) ≤ segmentLimit cfg := by
  have hd := popTask_drawn s
  rw [runStep1]
  rcases hpop : popTask s with ⟨ob, s'⟩
  rw [hpop] at hd
  cases ob with
  | none =>
      show (s'.drawnSegments : ℤ) ≤ segmentLimit cfg
      rw [hd]
      exact h
  | some b =>
      show ((step cfg r s' b).drawnSegments : ℤ) ≤ segmentLimit cfg
      exact step_drawn_le cfg r s' b (by rw [hd]; exact h)

lemma runSteps_drawn_le (cfg : Config) (rs : List StepRand) :
    ∀ s : RunState, (s.drawnSegments : ℤ) ≤ segmentLimit cfg →
      ((runSteps cfg rs s).drawnSegments : ℤ) ≤ segmentLimit cfg := by
  induction rs with
  | nil => exact fun s h => h
  | cons r rs ih =>
      intro s h
      exact ih _ (runStep1_drawn_le cfg r s h)

lemma seedBranches_drawn (cfg : Config) (s : RunState) :
    (seedBranches cfg s).drawnSegments = s.drawnSegments := by
  simp only [seedBranches]
  split_ifs <;>
    simp only [queueStep_drawn, foldl_queueStep_drawn]

/-- C1: `queueStep` refuses to enqueue once `pending + drawn ≥ segmentLimit`,
and over any schedule of pop-and-expand iterations of a seeded generation the
`drawnSegments` counter never exceeds the segment budget. -/
theorem queue_budget_invariant (cfg : Config) (hd : 0 ≤ cfg.density) :
    (∀ (s : RunState) (b : Branch),
        segmentLimit cfg ≤ (pendingTaskCount s : ℤ) + (s.drawnSegments : ℤ) →
        queueStep cfg s b = s) ∧
    (∀ rs : List StepRand,
        ((runSteps cfg rs (seedBranches cfg initState)).drawnSegments : ℤ)
          ≤ segmentLimit cfg) := by
  constructor
  · intro s b h
    rw [queueStep, if_pos h]
  · intro rs
    apply runSteps_drawn_le
    rw [seedBranches_drawn]
    have := segmentLimit_ge cfg hd
    simp only [initState]
    omega

/-- Witness for C1: with the component's initial configuration, the empty
schedule of the seeded generation keeps `drawnSegments` within the budget. -/
theorem queue_budget_invariant_witness :
    ((runSteps baseConfig [] (seedBranches baseConfig initState)).drawnSegments : ℤ)
      ≤ segmentLimit baseConfig :=
  (queue_budget_invariant baseConfig (by norm_num [baseConfig])).2 []

lemma mkChild_length_bounds (cfg : Config) (config : PatternConfig) (r : StepRand)
    (branch : Branch) (endp : Point) (i : ℕ) (hwh : 250 ≤ min cfg.width cfg.height) :
    2 ≤ (mkChild cfg config r branch endp i).length ∧
      (mkChild cfg config r branch endp i).length ≤ 0.1 * max cfg.width cfg.height := by
  have hmax : (250 : ℝ) ≤ max cfg.width cfg.height := le_trans hwh (min_le_max)
  have hle : (2 : ℝ) ≤ max cfg.width cfg.height * 0.1 := by linarith
  rw [mkChild_length_eq]
  obtain ⟨h1, h2⟩ := clamp_mem (branch.length
      * randomBetween config.decayMin config.decayMax (r.decayRoll i)
      * randomBetween 0.9 1.08 (r.stretchRoll i) * ((cfg.density : ℝ) / 45))
    2 (max cfg.width cfg.height * 0.1) hle
  exact ⟨h1, by linarith⟩

/-- C5: every branch `step` enqueues is a `mkChild`, whose length is exactly
`clamp(parent·random(decayMin,decayMax)·random(0.9,1.08)·density/45, 2,
0.1·max(width,height))`; with the canvas size the component guarantees
(`setCanvasSize` clamps the side into `[250, 760]`), that length always lies
in `[2, 0.1·max(width,height)]`, for every profile and every random draw. -/
theorem child_length_clamped (cfg : Config) (r : StepRand) (s : RunState)
    (branch : Branch) (hwh : 250 ≤ min cfg.width cfg.height) :
    (∀ b ∈ (step cfg r s branch).tasks, b ∈ s.tasks ∨
        ∃ i, b = mkChild cfg (patternConfigs cfg.pattern) r branch (getEndPoint branch) i) ∧
    (∀ (config : PatternConfig) (endp : Point) (i : ℕ),
        (mkChild cfg config r branch endp i).length
          = clamp (branch.length
                * randomBetween config.decayMin config.decayMax (r.decayRoll i)
                * randomBetween 0.9 1.08 (r.stretchRoll i) * ((cfg.density : ℝ) / 45))
              2 (max cfg.width cfg.height * 0.1)
          ∧ 2 ≤ (mkChild cfg config r branch endp i).length
          ∧ (mkChild cfg config r branch endp i).length
              ≤ 0.1 * max cfg.width cfg.height) := by
  refine ⟨step_tasks_mem cfg r s branch, fun config endp i => ?_⟩
  obtain ⟨h1, h2⟩ := mkChild_length_bounds cfg config r branch endp i hwh
  exact ⟨mkChild_length_eq .., h1, h2⟩

/-- Witness for C5: at the component's initial 600×600 canvas, a plum child of
the demo branch has length at least 2. -/
theorem child_length_clamped_witness :
    2 ≤ (mkChild baseConfig (patternConfigs Pattern.plum) zeroRand demoBranch
          { x := 0, y := 0 } 0).length :=
  ((child_length_clamped baseConfig zeroRand initState demoBranch
      (by norm_num [baseConfig])).2 (patternConfigs Pattern.plum)
      { x := 0, y := 0 } 0).2.1

lemma queueStep_len2 (cfg : Config) (s : RunState) (b : Branch)
    (hs : ∀ x ∈ s.tasks, 2 ≤ x.length) (hb : 2 ≤ b.length) :
    ∀ x ∈ (queueStep cfg s b).tasks, 2 ≤ x.length := by
  intro x hx
  rcases queueStep_tasks_cases cfg s b with h | h <;> rw [h] at hx
  · exact hs x hx
  · rcases List.mem_append.mp hx with h' | h'
    · exact hs x h'
    · rw [List.mem_singleton.mp h']
      exact hb

lemma foldl_queueStep_len2 (cfg : Config) (f : ℕ → Branch) (l : List ℕ) (s : RunState)
    (hs : ∀ x ∈ s.tasks, 2 ≤ x.length) (hf : ∀ i, 2 ≤ (f i).length) :
    ∀ x ∈ (l.foldl (fun acc i => queueStep cfg acc (f i)) s).tasks, 2 ≤ x.length := by
  intro x hx
  rcases foldl_queueStep_mem cfg f l s x hx with h | ⟨i, rfl⟩
  · exact hs x h
  · exact hf i

lemma seedBranches_len2 (cfg : Config) (s : RunState)
    (hwh : 250 ≤ min cfg.width cfg.height) (hs : ∀ x ∈ s.tasks, 2 ≤ x.length) :
    ∀ x ∈ (seedBranches cfg s).tasks, 2 ≤ x.length := by
  have h04 : (2 : ℝ) ≤ min cfg.width cfg.height * 0.04 := by linarith
  have h03 : (2 : ℝ) ≤ min cfg.width cfg.height * 0.03 := by linarith
  simp only [seedBranches]
  split_ifs
  · exact queueStep_len2 cfg _ _ (queueStep_len2 cfg s _ hs h04) h04
  · exact foldl_queueStep_len2 cfg _ _ s hs (fun _ => h04)
  · exact foldl_queueStep_len2 cfg _ _ s hs (fun _ => h03)

lemma step_len2 (cfg : Config) (r : StepRand) (s : RunState) (branch : Branch)
    (hwh : 250 ≤ min cfg.width cfg.height) (hs : ∀ x ∈ s.tasks, 2 ≤ x.length) :
    ∀ x ∈ (step cfg r s branch).tasks, 2 ≤ x.length := by
  intro x hx
  rcases step_tasks_mem cfg r s branch x hx with h | ⟨i, rfl⟩
  · exact hs x h
  · exact (mkChild_length_bounds cfg _ r branch _ i hwh).1

lemma popTask_tasks_sub (s : RunState) :
    ∀ x ∈ (popTask s).2.tasks, x ∈ s.tasks := by
  simp only [popTask]
  split_ifs <;> intro x hx
  · exact List.mem_of_mem_drop hx
  · exact hx
  · exact hx

lemma popTask_fst_mem (s : RunState) (b : Branch) (h : (popTask s).1 = some b) :
    b ∈ s.tasks := by
  simp only [popTask] at h
  split_ifs at h
  all_goals
    simp only [Option.some.injEq] at h
  · rw [← h]
    exact List.get_mem _ _ _
  · rw [← h]
    exact List.get_mem _ _ _

lemma runStep1_len2 (cfg : Config) (r : StepRand) (s : RunState)
    (hwh : 250 ≤ min cfg.width cfg.height) (hs : ∀ x ∈ s.tasks, 2 ≤ x.length) :
    ∀ x ∈ (runStep1 cfg r s).tasks, 2 ≤ x.length := by
  rw [runStep1]
  rcases hpop : popTask s with ⟨ob, s'⟩
  have hsub : ∀ x ∈ s'.tasks, x ∈ s.tasks := by
    have := popTask_tasks_sub s
    rw [hpop] at this
    exact this
  have hs' : ∀ x ∈ s'.tasks, 2 ≤ x.length := fun x hx => hs x (hsub x hx)
  cases ob with
  | none =>
      show ∀ x ∈ s'.tasks, 2 ≤ x.length
      exact hs'
  | some b =>
      show ∀ x ∈ (step cfg r s' b).tasks, 2 ≤ x.length
      exact step_len2 cfg r s' b hwh hs'

lemma runSteps_len2 (cfg : Config) (rs : List StepRand)
    (hwh : 250 ≤ min cfg.width cfg.height) :
    ∀ s : RunState, (∀ x ∈ s.tasks, 2 ≤ x.length) →
      ∀ x ∈ (runSteps cfg rs s).tasks, 2 ≤ x.length := by
  induction rs with
  | nil => exact fun s hs => hs
  | cons r rs ih => exact fun s hs => ih _ (runStep1_len2 cfg r s hwh hs)

/-- C10: with the canvas side the component guarantees (`setCanvasSize` clamps
it into `[250, 760]`, so `min(width,height) ≥ 250`), every branch ever popped
from the queue of a seeded generation has length at least 2 — seeds measure
`0.04·min` or `0.03·min` and children are clamped below at 2 — so the
`branch.length < 1.6` early return in `step` is never taken for queued work. -/
theorem popped_branch_length_ge (cfg : Config) (hwh : 250 ≤ min cfg.width cfg.height)
    (rs : List StepRand) (b : Branch)
    (hpop : (popTask (runSteps cfg rs (seedBranches cfg initState))).1 = some b) :
    2 ≤ b.length ∧ ¬ (b.length < 1.6) := by
  have hinit : ∀ x ∈ initState.tasks, 2 ≤ x.length := by
    intro x hx
    simp [initState] at hx
  have hall : ∀ x ∈ (runSteps cfg rs (seedBranches cfg initState)).tasks, 2 ≤ x.length :=
    runSteps_len2 cfg rs hwh _ (seedBranches_len2 cfg _ hwh hinit)
  have h2 := hall b (popTask_fst_mem _ b hpop)
  exact ⟨h2, by linarith⟩

lemma seedBranches_plum_eval (cfg : Config) (hd : 0 ≤ cfg.density)
    (hp : cfg.pattern = .plum) :
    seedBranches cfg initState =
      { tasks := [
          { start := { x := cfg.width * 0.24, y := cfg.height }
            length := min cfg.width cfg.height * 0.04
            theta := -(Real.pi / 2), depth := 0, hueOffset := -20 },
          { start := { x := cfg.width * 0.76, y := 0 }
            length := min cfg.width cfg.height * 0.04
            theta := Real.pi / 2, depth := 0, hueOffset := 20 }]
        taskIndex := 0, drawnSegments := 0, segments := [] } := by
  have hlim := segmentLimit_ge cfg hd
  have h0 : ¬ (segmentLimit cfg ≤ (0 : ℤ)) := by omega
  have h1 : ¬ (segmentLimit cfg ≤ (1 : ℤ)) := by omega
  simp [seedBranches, hp, queueStep, pendingTaskCount, initState, h0, h1]

lemma seedBranches_spiral_eval (cfg : Config) (hd : 0 ≤ cfg.density)
    (hp : cfg.pattern = .spiral) :
    seedBranches cfg initState =
      { tasks := [
          { start := { x := cfg.width / 2, y := cfg.height / 2 }
            length := min cfg.width cfg.height * 0.04
            theta := 0, depth := 0, hueOffset := 0 },
          { start := { x := cfg.width / 2, y := cfg.height / 2 }
            length := min cfg.width cfg.height * 0.04
            theta := Real.pi / 2, depth := 0, hueOffset := 30 },
          { start := { x := cfg.width / 2, y := cfg.height / 2 }
            length := min cfg.width cfg.height * 0.04
            theta := Real.pi / 2 * 2, depth := 0, hueOffset := 60 },
          { start := { x := cfg.width / 2, y := cfg.height / 2 }
            length := min cfg.width cfg.height * 0.04
            theta := Real.pi / 2 * 3, depth := 0, hueOffset := 90 }]
        taskIndex := 0, drawnSegments := 0, segments := [] } := by
  have hlim := segmentLimit_ge cfg hd
  have h0 : ¬ (segmentLimit cfg ≤ (0 : ℤ)) := by omega
  have h1 : ¬ (segmentLimit cfg ≤ (1 : ℤ)) := by omega
  have h2 : ¬ (segmentLimit cfg ≤ (2 : ℤ)) := by omega
  have h3 : ¬ (segmentLimit cfg ≤ (3 : ℤ)) := by omega
  have e1 : ¬ (Pattern.spiral = Pattern.plum) := by decide
  norm_num [seedBranches, hp, queueStep, pendingTaskCount, initState,
    h0, h1, h2, h3, e1, List.range_succ]

lemma seedBranches_crystal_eval (cfg : Config) (hd : 0 ≤ cfg.density)
    (hp : cfg.pattern = .crystal) :
    seedBranches cfg initState =
      { tasks := [
          { start := { x := cfg.width / 2, y := cfg.height / 2 }
            length := min cfg.width cfg.height * 0.03
            theta := 0, depth := 0, hueOffset := 0 },
          { start := { x := cfg.width / 2, y := cfg.height / 2 }
            length := min cfg.width cfg.height * 0.03
            theta := Real.pi / 3, depth := 0, hueOffset := 18 },
          { start := { x := cfg.width / 2, y := cfg.height / 2 }
            length := min cfg.width cfg.height * 0.03
            theta := Real.pi / 3 * 2, depth := 0, hueOffset := 36 },
          { start := { x := cfg.width / 2, y := cfg.height / 2 }
            length := min cfg.width cfg.height * 0.03
            theta := Real.pi / 3 * 3, depth := 0, hueOffset := 54 },
          { start := { x := cfg.width / 2, y := cfg.height / 2 }
            length := min cfg.width cfg.height * 0.03
            theta := Real.pi / 3 * 4, depth := 0, hueOffset := 72 },
          { start := { x := cfg.width / 2, y := cfg.height / 2 }
            length := min cfg.width cfg.height * 0.03
            theta := Real.pi / 3 * 5, depth := 0, hueOffset := 90 }]
        taskIndex := 0, drawnSegments := 0, segments := [] } := by
  have hlim := segmentLimit_ge cfg hd
  have h0 : ¬ (segmentLimit cfg ≤ (0 : ℤ)) := by omega
  have h1 : ¬ (segmentLimit cfg ≤ (1 : ℤ)) := by omega
  have h2 : ¬ (segmentLimit cfg ≤ (2 : ℤ)) := by omega
  have h3 : ¬ (segmentLimit cfg ≤ (3 : ℤ)) := by omega
  have h4 : ¬ (segmentLimit cfg ≤ (4 : ℤ)) := by omega
  have h5 : ¬ (segmentLimit cfg ≤ (5 : ℤ)) := by omega
  have e1 : ¬ (Pattern.crystal = Pattern.plum) := by decide
  have e2 : ¬ (Pattern.crystal = Pattern.spiral) := by decide
  norm_num [seedBranches, hp, queueStep, pendingTaskCount, initState,
    h0, h1, h2, h3, h4, h5, e1, e2, List.range_succ]

/-- C7: seeding the plum pattern enqueues exactly the two opposite seed trunks
(`(0.24·w, h)` heading up — `θ = -π/2`, canvas `y` grows downward — and
`(0.76·w, 0)` heading down — `θ = π/2` — both depth 0, length
`0.04·min(w,h)`); the spiral pattern enqueues four radial trunks from the
center at right angles, and the crystal pattern six at `π/3` spacing. -/
theorem seed_branches_spec (cfg : Config) (hd : 0 ≤ cfg.density) :
    (cfg.pattern = .plum → (seedBranches cfg initState).tasks =
      [{ start := { x := cfg.width * 0.24, y := cfg.height }
         length := min cfg.width cfg.height * 0.04
         theta := -(Real.pi / 2), depth := 0, hueOffset := -20 },
       { start := { x := cfg.width * 0.76, y := 0 }
         length := min cfg.width cfg.height * 0.04
         theta := Real.pi / 2, depth := 0, hueOffset := 20 }]) ∧
    (cfg.pattern = .spiral → (seedBranches cfg initState).tasks.length = 4 ∧
      ∀ b ∈ (seedBranches cfg initState).tasks,
        b.start = { x := cfg.width / 2, y := cfg.height / 2 } ∧ b.depth = 0) ∧
    (cfg.pattern = .crystal → (seedBranches cfg initState).tasks.length = 6 ∧
      ∀ b ∈ (seedBranches cfg initState).tasks,
        b.start = { x := cfg.width / 2, y := cfg.height / 2 } ∧ b.depth = 0) := by
  refine ⟨fun hp => ?_, fun hp => ?_, fun hp => ?_⟩
  · rw [seedBranches_plum_eval cfg hd hp]
  · rw [seedBranches_spiral_eval cfg hd hp]
    refine ⟨rfl, ?_⟩
    intro b hb
    simp only [List.mem_cons, List.not_mem_nil, or_false] at hb
    rcases hb with rfl | rfl | rfl | rfl <;> exact ⟨rfl, rfl⟩
  · rw [seedBranches_crystal_eval cfg hd hp]
    refine ⟨rfl, ?_⟩
    intro b hb
    simp only [List.mem_cons, List.not_mem_nil, or_false] at hb
    rcases hb with rfl | rfl | rfl | rfl | rfl | rfl <;> exact ⟨rfl, rfl⟩

/-- Witness for C7: at the component's initial configuration (plum pattern,
600×600 canvas) the two seed trunks are exactly as specified. -/
theorem seed_branches_spec_witness :
    (seedBranches baseConfig initState).tasks =
      [{ start := { x := baseConfig.width * 0.24, y := baseConfig.height }
         length := min baseConfig.width baseConfig.height * 0.04
         theta := -(Real.pi / 2), depth := 0, hueOffset := -20 },
       { start := { x := baseConfig.width * 0.76, y := 0 }
         length := min baseConfig.width baseConfig.height * 0.04
         theta := Real.pi / 2, depth := 0, hueOffset := 20 }] :=
  (seed_branches_spec baseConfig (by norm_num [baseConfig])).1 rfl

/-- Witness for C10: at the initial configuration, popping the first seed of a
freshly seeded plum generation yields a branch of length `0.04·600 = 24 ≥ 2`,
so the `length < 1.6` early return does not fire. -/
theorem popped_branch_length_ge_witness :
    2 ≤ (Branch.mk { x := baseConfig.width * 0.24, y := baseConfig.height }
          (min baseConfig.width baseConfig.height * 0.04)
          (-(Real.pi / 2)) 0 (-20)).length ∧
    ¬ ((Branch.mk { x := baseConfig.width * 0.24, y := baseConfig.height }
          (min baseConfig.width baseConfig.height * 0.04)
          (-(Real.pi / 2)) 0 (-20)).length < 1.6) :=
  popped_branch_length_ge baseConfig (by norm_num [baseConfig]) [] _ (by
    have h : runSteps baseConfig [] (seedBranches baseConfig initState)
        = seedBranches baseConfig initState := rfl
    rw [h, seedBranches_plum_eval baseConfig (by norm_num [baseConfig]) rfl]
    simp [popTask])

lemma popTask_sim (s : RunState) (t : SpecQueue) (h : QAbs s t) :
    (popTask s).1 = (specPop t).1 ∧ QAbs (popTask s).2 (specPop t).2 := by
  obtain ⟨hle, hq, hd⟩ := h
  obtain ⟨tq, td⟩ := t
  subst hq
  subst hd
  by_cases h1 : s.taskIndex < s.tasks.length
  · have hdrop : s.tasks.drop s.taskIndex
        = s.tasks.get ⟨s.taskIndex, h1⟩ :: s.tasks.drop (s.taskIndex + 1) := by
      rw [List.get_eq_getElem]
      exact List.drop_eq_getElem_cons h1
    have hspec : specPop { queue := s.tasks.drop s.taskIndex, drawn := s.drawnSegments }
        = (some (s.tasks.get ⟨s.taskIndex, h1⟩),
           { queue := s.tasks.drop (s.taskIndex + 1), drawn := s.drawnSegments }) := by
      rw [hdrop]
      rfl
    rw [hspec]
    simp only [popTask, dif_pos h1]
    split_ifs with h2
    · exact ⟨rfl, Nat.zero_le _, (List.drop_zero _).symm, rfl⟩
    · exact ⟨rfl, h1, rfl, rfl⟩
  · have hnil : s.tasks.drop s.taskIndex = [] :=
      List.drop_eq_nil_of_le (le_of_not_lt h1)
    have hspec : specPop { queue := s.tasks.drop s.taskIndex, drawn := s.drawnSegments }
        = (none, { queue := s.tasks.drop s.taskIndex, drawn := s.drawnSegments }) := by
      rw [hnil]
      rfl
    rw [hspec]
    simp only [popTask, dif_neg h1]
    exact ⟨trivial, hle, rfl, rfl⟩

lemma queueStep_sim (cfg : Config) (s : RunState) (t : SpecQueue) (b : Branch)
    (h : QAbs s t) : QAbs (queueStep cfg s b) (specEnq cfg t b) := by
  obtain ⟨hle, hq, hd⟩ := h
  have hpend : (pendingTaskCount s : ℤ) = (t.queue.length : ℤ) := by
    rw [hq, List.length_drop]
    rfl
  have hguard : (segmentLimit cfg ≤ (pendingTaskCount s : ℤ) + (s.drawnSegments : ℤ))
      ↔ (segmentLimit cfg ≤ (t.queue.length : ℤ) + (t.drawn : ℤ)) := by
    rw [hpend, hd]
  rw [queueStep, specEnq]
  split_ifs with hA hB
  · exact ⟨hle, hq, hd⟩
  · exact absurd (hguard.mp hA) hB
  · exact absurd (hguard.mpr ‹_›) hA
  · refine ⟨?_, ?_, hd⟩
    · show s.taskIndex ≤ (s.tasks ++ [b]).length
      rw [List.length_append]
      omega
    · show t.queue ++ [b] = (s.tasks ++ [b]).drop s.taskIndex
      rw [List.drop_append_of_le_length hle, hq]

/-- C8: queue compaction is observationally pure — for every sequence of
enqueue and pop operations, the stream of pop results of the real compacting
queue (`popTask`/`queueStep`) is identical to that of a plain FIFO queue
without compaction, starting from any pair of states related by the read
cursor abstraction. -/
theorem compaction_observationally_pure (cfg : Config) (ops : List QOp)
    (s : RunState) (t : SpecQueue) (h : QAbs s t) :
    runImplOps cfg ops s = runSpecOps cfg ops t := by
  induction ops generalizing s t with
  | nil => rfl
  | cons op ops ih =>
      cases op with
      | enq b => exact ih _ _ (queueStep_sim cfg s t b h)
      | pop =>
          obtain ⟨h1, h2⟩ := popTask_sim s t h
          simp only [runImplOps, runSpecOps]
          rw [h1, ih _ _ h2]

/-- Witness for C8: a concrete enqueue-pop-pop run from the empty queue gives
the same pop results in the compacting and the plain FIFO queues. -/
theorem compaction_observationally_pure_witness :
    runImplOps baseConfig [QOp.enq demoBranch, QOp.pop, QOp.pop] initState
      = runSpecOps baseConfig [QOp.enq demoBranch, QOp.pop, QOp.pop]
          { queue := [], drawn := 0 } :=
  compaction_observationally_pure baseConfig _ _ _
    ⟨Nat.le_refl 0, rfl, rfl⟩

end Plum
